import Mathlib

/-!
Shallow embedding of `src/solver.py` (class `Solver`), the training-loop
driver of this repository.  The driver orchestrates calls into external
collaborators (model, loss criterion, optimizer, data loader, metrics
aggregator, optional scheduler); those collaborators are abstracted here as
a record `Collab` of pure functions over parameter types, and Python float
arithmetic is modelled with exact rationals.  Python exceptions are modelled
by `PyError`, carried in `Except` results and in the `err` field of the
driver state; once an exception is raised the remaining code of `fit` does
not run, which the epoch step models by freezing the state.
-/

namespace SolverPy

/-- Python exceptions that the code under `src/solver.py` can raise at the
points relevant to the specification. -/
inductive PyError where
  | typeError
  | zeroDivisionError
  | attributeError
  | indexError
deriving DecidableEq, Repr

/-- One batch produced by a data loader: the pair `(X, Y)` of an input
tensor and a label tensor (solver.py, loop headers at lines 86 and 130). -/
structure BatchData (ι γ : Type) where
  X : ι
  Y : γ
deriving DecidableEq, Repr

/-- The mutable model object: its parameter state (mutated by
`optimizer.step()`) and its train/eval mode flag (`model.train()` /
`model.eval()`). -/
structure Model (P : Type) where
  params : P
  training : Bool
deriving DecidableEq, Repr

/-- The external collaborators of the driver, abstracted as pure functions:
`forward` is `model(X)` (reading parameters and the mode flag), `criterion`
is the loss `criterion(logits, Y)`, `gradUpdate` is the combined effect of
`loss.backward(); optimizer.step()` on the parameters, `size0` is
`X.size(0)`.  `mInit`, `mUpdate`, `mDice` model the external
`utils.Metrics` aggregator (not under `src/`), modelled from the spec:
`reset()` restores the initial accumulator state, `update(logits, Y)` folds
a batch in, and `mDice` is the `DICE_SCORE` entry of the mapping returned
by `compute()`. -/
structure Collab (P ι γ L M : Type) where
  forward : P → Bool → ι → L
  criterion : L → γ → ℚ
  gradUpdate : P → ι → γ → P
  size0 : ι → ℕ
  mInit : M
  mUpdate : M → L → γ → M
  mDice : M → ℚ

variable {P ι γ L M S : Type}

/-- Accumulator of `Solver.train` (solver.py lines 79-101): the model being
trained, the metrics accumulator, `loss_sum`, `loss_total`, `avg_sum` and
the `train_loss` list.  `batch_idx` equals `train_loss.length`, since one
element is appended per iteration of `enumerate(dataloader)`. -/
structure TrainAcc (P M : Type) where
  model : Model P
  met : M
  loss_sum : ℚ
  loss_total : ℕ
  avg_sum : ℚ
  train_loss : List ℚ

/-- Body of the batch loop of `Solver.train` (solver.py lines 86-109).
`optimizer.zero_grad()` clears gradients only and does not change the
modelled parameter state; the loss is computed from the parameters before
`optimizer.step()` updates them; the progress-bar `set_postfix` call only
displays values and has no modelled effect. -/
def trainStep (C : Collab P ι γ L M) (a : TrainAcc P M) (b : BatchData ι γ) : TrainAcc P M :=
  let batch_size := C.size0 b.X
  let logits := C.forward a.model.params a.model.training b.X
  let l := C.criterion logits b.Y
  { model := { a.model with params := C.gradUpdate a.model.params b.X b.Y }
    met := C.mUpdate a.met logits b.Y
    loss_sum := a.loss_sum + l * (batch_size : ℚ)
    loss_total := a.loss_total + batch_size
    avg_sum := a.avg_sum + l
    train_loss := a.train_loss ++ [(a.avg_sum + l) / ((a.train_loss.length : ℚ) + 1)] }

/-- `Solver.train` (solver.py lines 70-111): sets the model to training
mode, folds the batch loop over the loader, and returns the (mutated)
model, the (mutated) metrics accumulator, and the return value
`(train_loss, loss_sum / loss_total)` — where the final division raises
`ZeroDivisionError` when `loss_total` is `0` (in particular on an empty
loader, where both remain the integer `0`). -/
def Solver.train (C : Collab P ι γ L M) (model : Model P) (met : M)
    (dataloader : List (BatchData ι γ)) :
    Model P × M × Except PyError (List ℚ × ℚ) :=
  let a0 : TrainAcc P M :=
    { model := { model with training := true }
      met := met
      loss_sum := 0
      loss_total := 0
      avg_sum := 0
      train_loss := [] }
  let a := dataloader.foldl (trainStep C) a0
  (a.model, a.met,
    if a.loss_total = 0 then Except.error PyError.zeroDivisionError
    else Except.ok (a.train_loss, a.loss_sum / ((a.loss_total : ℚ))))

/-- Accumulator of `Solver.evaluate` (solver.py lines 124-126): the metrics
accumulator, `all_loss`, `total` and `avg_sum` (the latter feeds only the
progress display). -/
structure EvalAcc (M : Type) where
  met : M
  all_loss : ℚ
  total : ℕ
  avg_sum : ℚ

/-- Body of the batch loop of `Solver.evaluate` (solver.py lines 130-149):
forward pass and loss only — no gradient clearing, no backward pass, no
optimizer step — with the model in evaluation mode. -/
def evalStep (C : Collab P ι γ L M) (p : P) (a : EvalAcc M) (b : BatchData ι γ) : EvalAcc M :=
  let logits := C.forward p false b.X
  let l := C.criterion logits b.Y
  { met := C.mUpdate a.met logits b.Y
    all_loss := a.all_loss + l * ((C.size0 b.X : ℚ))
    total := a.total + C.size0 b.X
    avg_sum := a.avg_sum + l }

/-- Body of `Solver.evaluate` (solver.py lines 113-151): sets the model to
evaluation mode, folds the batch loop, and returns the model, the metrics
accumulator, and `all_loss / total` — `ZeroDivisionError` when `total` is
`0`.  (This is the behaviour of the function body once its six parameters
are bound; the binding defect of the call site in `fit` is modelled
separately by `evaluateCallBinds`.) -/
def Solver.evaluate (C : Collab P ι γ L M) (model : Model P) (met : M)
    (dataloader : List (BatchData ι γ)) :
    Model P × M × Except PyError ℚ :=
  let m1 : Model P := { model with training := false }
  let a := dataloader.foldl (evalStep C m1.params)
    { met := met
      all_loss := 0
      total := 0
      avg_sum := 0 }
  (m1, a.met,
    if a.total = 0 then Except.error PyError.zeroDivisionError
    else Except.ok (a.all_loss / ((a.total : ℚ))))

/-- Python truthiness of the `scheduler` attribute: `None` is falsy, any
scheduler object is truthy. -/
def optTruthy : Option S → Bool
  | none => false
  | some _ => true

/-- The guard of solver.py line 59: `if not self.scheduler:`. -/
def schedulerGuard (sch : Option S) : Bool := !(optTruthy sch)

/-- Lines 59-60 of solver.py: when the guard `not self.scheduler` holds the
code evaluates `self.scheduler.step(...)`; in that branch `self.scheduler`
is necessarily `None`, and attribute lookup `None.step` raises
`AttributeError`.  When a scheduler object is configured the guard is false
and nothing happens. -/
def schedulerStepLine (sch : Option S) : Except PyError Unit :=
  if schedulerGuard sch then
    match sch with
    | none => Except.error PyError.attributeError
    | some _ => Except.ok ()
  else Except.ok ()

/-- Number of parameters of `Solver.evaluate` without a default value
(solver.py lines 115-121): `self`, `model`, `criterion`, `device`,
`dataloader`, `metrics` (`decsription` has a default). -/
def evaluateRequiredParams : ℕ := 6

/-- Number of positional arguments supplied at the call site
`self.evaluate(self.model, self.criterion, self.device, self.val_loader,
self.val_metrics)` in `fit` (solver.py line 54).  `evaluate` is a
`@staticmethod`, so the attribute access `self.evaluate` binds no instance
and exactly five arguments are passed. -/
def evaluateCallArgs : ℕ := 5

/-- Whether the call of `evaluate` in `fit` binds: Python raises
`TypeError` (missing required positional argument `metrics`) when fewer
positional arguments are supplied than there are parameters without
defaults. -/
def evaluateCallBinds : Bool := decide (evaluateRequiredParams ≤ evaluateCallArgs)

/-- The state of a `Solver` instance during `fit` (attributes set in
`__init__`, solver.py lines 25-41), plus an `err` field modelling a raised,
uncaught Python exception, and a ghost field `dice_history` recording the
value `val_agg_metrics[DICE_SCORE]` read at line 62 of each completed
epoch (instrumentation for stating invariants; not a source attribute). -/
structure FitState (P M : Type) where
  model : Model P
  train_metrics : M
  val_metrics : M
  train_loss_history : List ℚ
  val_loss_history : List ℚ
  train_loss_batch : List ℚ
  best_model : P
  best_dice_score : ℚ
  dice_history : List ℚ
  err : Option PyError

/-- The state built by `Solver.__init__` (solver.py lines 25-41): fresh
metric accumulators, empty histories, `best_model = copy.deepcopy(model)`
(modelled as capturing the parameter value) and `best_dice_score = 0.0`. -/
def initState (C : Collab P ι γ L M) (m0 : Model P) : FitState P M :=
  { model := m0
    train_metrics := C.mInit
    val_metrics := C.mInit
    train_loss_history := []
    val_loss_history := []
    train_loss_batch := []
    best_model := m0.params
    best_dice_score := 0
    dice_history := []
    err := none }

/-- One iteration of the epoch loop of `Solver.fit` (solver.py lines
44-68), parametric in `bind`, the outcome of the argument binding of the
`evaluate` call at line 54 (the source has `bind = evaluateCallBinds`; the
loop with `bind = true` is the same loop under a binding that succeeds).
A state whose `err` is set is returned unchanged: the exception has already
aborted `fit`.  Stage by stage:
lines 47-48 reset both metric accumulators; line 50 runs the training pass;
lines 51-52 extend `train_loss_batch` and append to `train_loss_history`;
line 54 calls `evaluate` (TypeError when the binding fails) and appends its
result to `val_loss_history`; lines 56-57 compute the aggregated metrics;
lines 59-60 are the scheduler guard; lines 62-64 update `best_dice_score`
and `best_model` (deep copy of the current model) when the epoch's Dice
score strictly exceeds the best; line 67 indexes `train_loss_batch[-1]`,
an `IndexError` when that list is empty. -/
def epochStep (C : Collab P ι γ L M) (bind : Bool) (sch : Option S)
    (T V : List (BatchData ι γ)) (st : FitState P M) : FitState P M :=
  if st.err.isSome then st else
  let tr := Solver.train C st.model C.mInit T
  let m1 := tr.1
  let tm1 := tr.2.1
  match tr.2.2 with
  | Except.error e =>
      { st with
        model := m1
        train_metrics := tm1
        val_metrics := C.mInit
        err := some e }
  | Except.ok (t1, t2) =>
      let tlb := st.train_loss_batch ++ t1
      let tlh := st.train_loss_history ++ [t2]
      if bind = false then
        { st with
          model := m1
          train_metrics := tm1
          val_metrics := C.mInit
          train_loss_batch := tlb
          train_loss_history := tlh
          err := some PyError.typeError }
      else
        let ev := Solver.evaluate C m1 C.mInit V
        let m2 := ev.1
        let vm1 := ev.2.1
        match ev.2.2 with
        | Except.error e =>
            { st with
              model := m2
              train_metrics := tm1
              val_metrics := vm1
              train_loss_batch := tlb
              train_loss_history := tlh
              err := some e }
        | Except.ok v =>
            let vlh := st.val_loss_history ++ [v]
            let d := C.mDice vm1
            match schedulerStepLine sch with
            | Except.error e =>
                { st with
                  model := m2
                  train_metrics := tm1
                  val_metrics := vm1
                  train_loss_batch := tlb
                  train_loss_history := tlh
                  val_loss_history := vlh
                  err := some e }
            | Except.ok _ =>
                let bd := if d > st.best_dice_score then d else st.best_dice_score
                let bm := if d > st.best_dice_score then m2.params else st.best_model
                if tlb.isEmpty then
                  { st with
                    model := m2
                    train_metrics := tm1
                    val_metrics := vm1
                    train_loss_batch := tlb
                    train_loss_history := tlh
                    val_loss_history := vlh
                    best_dice_score := bd
                    best_model := bm
                    dice_history := st.dice_history ++ [d]
                    err := some PyError.indexError }
                else
                  { model := m2
                    train_metrics := tm1
                    val_metrics := vm1
                    train_loss_batch := tlb
                    train_loss_history := tlh
                    val_loss_history := vlh
                    best_dice_score := bd
                    best_model := bm
                    dice_history := st.dice_history ++ [d]
                    err := none }

/-- The epoch loop of `fit` run for `epochs` iterations from the
`__init__` state, parametric in the binding outcome of the `evaluate`
call. -/
def fitGen (C : Collab P ι γ L M) (bind : Bool) (sch : Option S)
    (T V : List (BatchData ι γ)) (m0 : Model P) (epochs : ℕ) : FitState P M :=
  (epochStep C bind sch T V)^[epochs] (initState C m0)

/-- `Solver.fit` (solver.py lines 43-68): the epoch loop under the actual
argument binding of the `evaluate` call site. -/
def Solver.fit (C : Collab P ι γ L M) (sch : Option S)
    (T V : List (BatchData ι γ)) (m0 : Model P) (epochs : ℕ) : FitState P M :=
  fitGen C evaluateCallBinds sch T V m0 epochs

/-- The sequence of per-batch losses produced by a training pass started at
parameters `p`: the loss of each batch is computed in training mode from
the parameters as updated by the optimizer steps of the preceding
batches. -/
def trainLosses (C : Collab P ι γ L M) : P → List (BatchData ι γ) → List ℚ
  | _, [] => []
  | p, b :: bs =>
      C.criterion (C.forward p true b.X) b.Y ::
        trainLosses C (C.gradUpdate p b.X b.Y) bs

/-- The sequence of per-batch losses produced by an evaluation pass at
fixed parameters `p` (evaluation mode). -/
def evalLosses (C : Collab P ι γ L M) (p : P) (bs : List (BatchData ι γ)) : List ℚ :=
  bs.map (fun b => C.criterion (C.forward p false b.X) b.Y)

/-- The batch sizes `X.size(0)` of a loader's batches. -/
def sizes (C : Collab P ι γ L M) (bs : List (BatchData ι γ)) : List ℕ :=
  bs.map (fun b => C.size0 b.X)

/-- Dot product of a loss list and a size list: the numerator of the
batch-size-weighted mean. -/
def dot : List ℚ → List ℕ → ℚ
  | l :: ls, s :: ss => l * (s : ℚ) + dot ls ss
  | _, _ => 0

/-- Running-average transform: starting from partial sum `a` over `k`
previous values, the list whose `i`-th element is the mean of the first
`k + i + 1` values.  `tlAux 0 0 ls` is the list of running means of
`ls`. -/
def tlAux : ℚ → ℕ → List ℚ → List ℚ
  | _, _, [] => []
  | a, k, l :: ls => (a + l) / ((k : ℚ) + 1) :: tlAux (a + l) (k + 1) ls

/-- A training pass produces one loss per batch. -/
lemma trainLosses_length (C : Collab P ι γ L M) (p : P) (bs : List (BatchData ι γ)) :
    (trainLosses C p bs).length = bs.length := by
  induction bs generalizing p with
  | nil => rfl
  | cons b bs ih => simp [trainLosses, ih]

/-- The running-average transform preserves length. -/
lemma tlAux_length (a : ℚ) (k : ℕ) (ls : List ℚ) : (tlAux a k ls).length = ls.length := by
  induction ls generalizing a k with
  | nil => rfl
  | cons l ls ih => simp [tlAux, ih]

/-- Element `i` of the running-average transform is the mean of the carried
partial sum and the first `i + 1` values. -/
lemma tlAux_get (ls : List ℚ) : ∀ (a : ℚ) (k i : ℕ) (hi : i < (tlAux a k ls).length),
    (tlAux a k ls).get ⟨i, hi⟩
      = (a + (ls.take (i + 1)).sum) / ((k : ℚ) + (i : ℚ) + 1) := by
  induction ls with
  | nil => intro a k i hi; simp [tlAux] at hi
  | cons l ls ih =>
    intro a k i hi
    cases i with
    | zero => simp [tlAux]
    | succ j =>
      have hj : j < (tlAux (a + l) (k + 1) ls).length := by
        simpa [tlAux] using hi
      have := ih (a + l) (k + 1) j hj
      simp only [tlAux, List.get_cons_succ, this, List.take_succ_cons, List.sum_cons]
      push_cast
      ring_nf

/-- Invariants of the batch-loop fold of `Solver.train`: the model stays in
training mode, the accumulators satisfy their closed forms over the
per-batch losses `trainLosses` and batch sizes. -/
lemma foldl_trainStep_spec (C : Collab P ι γ L M) (bs : List (BatchData ι γ)) :
    ∀ a : TrainAcc P M, a.model.training = true →
      (bs.foldl (trainStep C) a).model.training = true ∧
      (bs.foldl (trainStep C) a).loss_sum
        = a.loss_sum + dot (trainLosses C a.model.params bs) (sizes C bs) ∧
      (bs.foldl (trainStep C) a).loss_total = a.loss_total + (sizes C bs).sum ∧
      (bs.foldl (trainStep C) a).avg_sum
        = a.avg_sum + (trainLosses C a.model.params bs).sum ∧
      (bs.foldl (trainStep C) a).train_loss
        = a.train_loss ++ tlAux a.avg_sum a.train_loss.length (trainLosses C a.model.params bs) := by
  induction bs with
  | nil => intro a ha; simp [trainLosses, sizes, dot, tlAux, ha]
  | cons b bs ih =>
    intro a ha
    have hstep : (trainStep C a b).model.training = true := by
      simp [trainStep, ha]
    obtain ⟨h1, h2, h3, h4, h5⟩ := ih (trainStep C a b) hstep
    refine ⟨by rw [List.foldl_cons]; exact h1, ?_, ?_, ?_, ?_⟩
    · rw [List.foldl_cons, h2]
      simp only [trainStep, ha, trainLosses, sizes, List.map_cons, dot]
      ring
    · rw [List.foldl_cons, h3]
      simp only [trainStep, sizes, List.map_cons, List.sum_cons]
      omega
    · rw [List.foldl_cons, h4]
      simp only [trainStep, ha, trainLosses, List.sum_cons]
      ring
    · rw [List.foldl_cons, h5]
      simp [trainStep, ha, trainLosses, tlAux]

/-- Invariants of the batch-loop fold of `Solver.evaluate`. -/
lemma foldl_evalStep_spec (C : Collab P ι γ L M) (p : P) (bs : List (BatchData ι γ)) :
    ∀ a : EvalAcc M,
      (bs.foldl (evalStep C p) a).all_loss
        = a.all_loss + dot (evalLosses C p bs) (sizes C bs) ∧
      (bs.foldl (evalStep C p) a).total = a.total + (sizes C bs).sum := by
  induction bs with
  | nil => intro a; simp [evalLosses, sizes, dot]
  | cons b bs ih =>
    intro a
    obtain ⟨h1, h2⟩ := ih (evalStep C p a b)
    refine ⟨?_, ?_⟩
    · rw [List.foldl_cons, h1]
      simp only [evalStep, evalLosses, List.map_cons, dot, sizes]
      ring
    · rw [List.foldl_cons, h2]
      simp only [evalStep, sizes, List.map_cons, List.sum_cons]
      omega

/-- Closed form of the return value of `Solver.train`: `ZeroDivisionError`
when the summed batch sizes are `0`, otherwise the running-average list and
the batch-size-weighted mean of the per-batch losses. -/
lemma train_result (C : Collab P ι γ L M) (m : Model P) (met : M)
    (T : List (BatchData ι γ)) :
    (Solver.train C m met T).2.2
      = if (sizes C T).sum = 0 then Except.error PyError.zeroDivisionError
        else Except.ok (tlAux 0 0 (trainLosses C m.params T),
          dot (trainLosses C m.params T) (sizes C T) / (((sizes C T).sum : ℚ))) := by
  obtain ⟨h1, h2, h3, h4, h5⟩ := foldl_trainStep_spec C T
    { model := { m with training := true }
      met := met
      loss_sum := 0
      loss_total := 0
      avg_sum := 0
      train_loss := [] } rfl
  simp only [Solver.train, h2, h3, h5] at *
  simp

/-- The model returned by `Solver.evaluate` is the input model switched to
evaluation mode. -/
lemma evaluate_model (C : Collab P ι γ L M) (m : Model P) (met : M)
    (V : List (BatchData ι γ)) :
    (Solver.evaluate C m met V).1 = { m with training := false } := rfl

/-- Closed form of the return value of `Solver.evaluate`:
`ZeroDivisionError` when the summed batch sizes are `0`, otherwise the
batch-size-weighted mean of the per-batch losses at the input model's
parameters. -/
lemma evaluate_result (C : Collab P ι γ L M) (m : Model P) (met : M)
    (V : List (BatchData ι γ)) :
    (Solver.evaluate C m met V).2.2
      = if (sizes C V).sum = 0 then Except.error PyError.zeroDivisionError
        else Except.ok (dot (evalLosses C m.params V) (sizes C V)
          / (((sizes C V).sum : ℚ))) := by
  obtain ⟨h1, h2⟩ := foldl_evalStep_spec C m.params V
    { met := met
      all_loss := 0
      total := 0
      avg_sum := 0 }
  simp only [Solver.evaluate, h1, h2] at *
  simp

/-- A nonempty loader whose batches are nonempty has a positive total batch
count. -/
lemma sizes_sum_ne_zero (C : Collab P ι γ L M) (T : List (BatchData ι γ))
    (hT : T ≠ []) (hs : ∀ b ∈ T, 0 < C.size0 b.X) : (sizes C T).sum ≠ 0 := by
  cases T with
  | nil => exact absurd rfl hT
  | cons b bs =>
    have hb : 0 < C.size0 b.X := hs b (by simp)
    simp only [sizes, List.map_cons, List.sum_cons]
    omega

/-- An epoch whose state already carries a raised exception does nothing:
the exception has aborted `fit`. -/
lemma epochStep_of_isSome (C : Collab P ι γ L M) (bind : Bool) (sch : Option S)
    (T V : List (BatchData ι γ)) (st : FitState P M) (h : st.err.isSome) :
    epochStep C bind sch T V st = st := by
  unfold epochStep
  rw [if_pos h]

/-- An error-free epoch result comes from an error-free starting state. -/
lemma err_none_of_epochStep (C : Collab P ι γ L M) (bind : Bool) (sch : Option S)
    (T V : List (BatchData ι γ)) (st : FitState P M)
    (h1 : (epochStep C bind sch T V st).err = none) : st.err = none := by
  by_cases h : st.err.isSome
  · rwa [epochStep_of_isSome C bind sch T V st h] at h1
  · exact Option.not_isSome_iff_eq_none.mp h

/-- If `(Solver.train _).2.2` returns `ok (t1, t2)` then `t1` has one entry
per batch of the loader. -/
lemma train_ok_fst_length (C : Collab P ι γ L M) (m : Model P) (met : M)
    (T : List (BatchData ι γ)) (t1 : List ℚ) (t2 : ℚ)
    (h : (Solver.train C m met T).2.2 = Except.ok (t1, t2)) : t1.length = T.length := by
  rw [train_result] at h
  by_cases hs : (sizes C T).sum = 0
  · simp [hs] at h
  · rw [if_neg hs] at h
    have h1 : tlAux 0 0 (trainLosses C m.params T) = t1 := by
      have := (Except.ok.injEq _ _).mp h
      exact (Prod.mk.injEq _ _ _ _).mp this |>.1
    rw [← h1, tlAux_length, trainLosses_length]

/-- Full characterisation of a successful epoch: both passes returned `ok`,
and the resulting state is the source's sequence of mutations of lines
47-68 — histories extended, metrics replaced, best score/snapshot updated
when the epoch's Dice score strictly improves. -/
lemma epochStep_ok_spec (C : Collab P ι γ L M) (bind : Bool) (sch : Option S)
    (T V : List (BatchData ι γ)) (st : FitState P M)
    (h0 : st.err = none) (h1 : (epochStep C bind sch T V st).err = none) :
    ∃ t1 t2 v,
      (Solver.train C st.model C.mInit T).2.2 = Except.ok (t1, t2) ∧
      (Solver.evaluate C (Solver.train C st.model C.mInit T).1 C.mInit V).2.2
        = Except.ok v ∧
      t1.length = T.length ∧
      epochStep C bind sch T V st =
        { model := (Solver.evaluate C (Solver.train C st.model C.mInit T).1 C.mInit V).1
          train_metrics := (Solver.train C st.model C.mInit T).2.1
          val_metrics :=
            (Solver.evaluate C (Solver.train C st.model C.mInit T).1 C.mInit V).2.1
          train_loss_batch := st.train_loss_batch ++ t1
          train_loss_history := st.train_loss_history ++ [t2]
          val_loss_history := st.val_loss_history ++ [v]
          best_dice_score :=
            if C.mDice (Solver.evaluate C (Solver.train C st.model C.mInit T).1 C.mInit V).2.1
                > st.best_dice_score
            then C.mDice (Solver.evaluate C (Solver.train C st.model C.mInit T).1 C.mInit V).2.1
            else st.best_dice_score
          best_model :=
            if C.mDice (Solver.evaluate C (Solver.train C st.model C.mInit T).1 C.mInit V).2.1
                > st.best_dice_score
            then (Solver.evaluate C (Solver.train C st.model C.mInit T).1 C.mInit V).1.params
            else st.best_model
          dice_history := st.dice_history ++
            [C.mDice (Solver.evaluate C (Solver.train C st.model C.mInit T).1 C.mInit V).2.1]
          err := none } := by
  unfold epochStep at h1 ⊢
  rw [if_neg (by simp [h0])] at h1 ⊢
  simp only [] at h1 ⊢
  rcases htr : (Solver.train C st.model C.mInit T).2.2 with e | ⟨t1, t2⟩
  · rw [htr] at h1
    simp at h1
  · rw [htr] at h1
    cases bind with
    | false => simp at h1
    | true =>
      rcases hev : (Solver.evaluate C (Solver.train C st.model C.mInit T).1 C.mInit V).2.2
        with e | v
      · rw [hev] at h1
        simp at h1
      · rw [hev] at h1
        rcases hsch : schedulerStepLine (S := S) sch with e | u
        · rw [hsch] at h1
          simp at h1
        · rw [hsch] at h1
          simp at h1
          by_cases he : st.train_loss_batch = [] ∧ t1 = []
          · rw [if_pos he] at h1
            simp at h1
          · refine ⟨t1, t2, v, rfl, rfl,
              train_ok_fst_length C st.model C.mInit T t1 t2 htr, ?_⟩
            simp [he]

/-- With a scheduler object configured the guard of line 59 is false and
lines 59-60 do nothing. -/
lemma schedulerStepLine_some (s : S) : schedulerStepLine (some s) = Except.ok () := by
  simp [schedulerStepLine, schedulerGuard, optTruthy]

/-- With no scheduler configured the guard of line 59 holds and the
attribute lookup `None.step` raises `AttributeError`. -/
lemma schedulerStepLine_none : schedulerStepLine (none : Option S)
    = Except.error PyError.attributeError := by
  simp [schedulerStepLine, schedulerGuard, optTruthy]

/-- `best_dice_score` never decreases across one epoch, whatever happens in
it. -/
lemma epochStep_best_mono (C : Collab P ι γ L M) (bind : Bool) (sch : Option S)
    (T V : List (BatchData ι γ)) (st : FitState P M) :
    st.best_dice_score ≤ (epochStep C bind sch T V st).best_dice_score := by
  by_cases h : st.err.isSome
  · rw [epochStep_of_isSome C bind sch T V st h]
  · unfold epochStep
    rw [if_neg h]
    simp only []
    rcases htr : (Solver.train C st.model C.mInit T).2.2 with e | ⟨t1, t2⟩
    · simp
    · cases bind with
      | false => simp
      | true =>
        rcases hev : (Solver.evaluate C (Solver.train C st.model C.mInit T).1 C.mInit V).2.2
          with e | v
        · simp
        · rcases hsch : schedulerStepLine (S := S) sch with e | u
          · simp
          · simp only [apply_ite (FitState.best_dice_score)]
            simp
            split
            · exact le_of_lt (by assumption)
            · exact le_rfl

/-- The only exceptions a training pass's return can carry. -/
lemma train_err_cases (C : Collab P ι γ L M) (m : Model P) (met : M)
    (T : List (BatchData ι γ)) (e : PyError)
    (h : (Solver.train C m met T).2.2 = Except.error e) : e = PyError.zeroDivisionError := by
  rw [train_result] at h
  by_cases hs : (sizes C T).sum = 0
  · rw [if_pos hs] at h
    exact (Except.error.injEq _ _).mp h |>.symm
  · rw [if_neg hs] at h
    simp at h

/-- The only exceptions an evaluation pass's return can carry. -/
lemma evaluate_err_cases (C : Collab P ι γ L M) (m : Model P) (met : M)
    (V : List (BatchData ι γ)) (e : PyError)
    (h : (Solver.evaluate C m met V).2.2 = Except.error e) : e = PyError.zeroDivisionError := by
  rw [evaluate_result] at h
  by_cases hs : (sizes C V).sum = 0
  · rw [if_pos hs] at h
    exact (Except.error.injEq _ _).mp h |>.symm
  · rw [if_neg hs] at h
    simp at h

/-- With a scheduler object configured, no epoch can raise the
`AttributeError` of the `None.step` lookup. -/
lemma epochStep_err_ne_attr (C : Collab P ι γ L M) (bind : Bool) (s : S)
    (T V : List (BatchData ι γ)) (st : FitState P M)
    (h : st.err ≠ some PyError.attributeError) :
    (epochStep C bind (some s) T V st).err ≠ some PyError.attributeError := by
  by_cases hs : st.err.isSome
  · rwa [epochStep_of_isSome C bind (some s) T V st hs]
  · unfold epochStep
    rw [if_neg hs]
    simp only []
    rcases htr : (Solver.train C st.model C.mInit T).2.2 with e | ⟨t1, t2⟩
    · have := train_err_cases C st.model C.mInit T e htr
      simp [this]
    · cases bind with
      | false => simp
      | true =>
        rcases hev : (Solver.evaluate C (Solver.train C st.model C.mInit T).1 C.mInit V).2.2
          with e | v
        · have := evaluate_err_cases C (Solver.train C st.model C.mInit T).1 C.mInit V e hev
          simp [this]
        · rw [schedulerStepLine_some]
          simp only [apply_ite (FitState.err)]
          simp

/-- With both loaders nonempty (and their batches nonempty) and a scheduler
object configured, an epoch started in an error-free state finishes
error-free. -/
lemma epochStep_completes (C : Collab P ι γ L M) (s : S)
    (T V : List (BatchData ι γ)) (st : FitState P M)
    (hT : T ≠ []) (hTs : ∀ b ∈ T, 0 < C.size0 b.X)
    (hV : V ≠ []) (hVs : ∀ b ∈ V, 0 < C.size0 b.X)
    (h0 : st.err = none) :
    (epochStep C true (some s) T V st).err = none := by
  have hTz : (sizes C T).sum ≠ 0 := sizes_sum_ne_zero C T hT hTs
  have hVz : (sizes C V).sum ≠ 0 := sizes_sum_ne_zero C V hV hVs
  have ht1 : (tlAux 0 0 (trainLosses C st.model.params T)).length = T.length := by
    rw [tlAux_length, trainLosses_length]
  have htne : tlAux 0 0 (trainLosses C st.model.params T) ≠ [] := by
    intro hnil
    rw [hnil] at ht1
    exact hT (List.length_eq_zero.mp ht1.symm)
  unfold epochStep
  rw [if_neg (by simp [h0])]
  simp only []
  rw [train_result, if_neg hTz]
  simp only []
  rw [evaluate_result, if_neg hVz]
  simp only []
  rw [schedulerStepLine_some]
  simp only [apply_ite (FitState.err)]
  simp [htne]

/-- Unfolding of one more epoch of the loop. -/
lemma fitGen_succ (C : Collab P ι γ L M) (bind : Bool) (sch : Option S)
    (T V : List (BatchData ι γ)) (m0 : Model P) (n : ℕ) :
    fitGen C bind sch T V m0 (n + 1)
      = epochStep C bind sch T V (fitGen C bind sch T V m0 n) :=
  Function.iterate_succ_apply' _ _ _

/-- A state carrying a raised exception is fixed by any number of further
epochs. -/
lemma iterate_epochStep_of_isSome (C : Collab P ι γ L M) (bind : Bool) (sch : Option S)
    (T V : List (BatchData ι γ)) (st : FitState P M) (h : st.err.isSome) (k : ℕ) :
    (epochStep C bind sch T V)^[k] st = st := by
  induction k with
  | zero => rfl
  | succ j ih => rw [Function.iterate_succ_apply, epochStep_of_isSome C bind sch T V st h, ih]

/-- With nonempty loaders of nonempty batches, a configured scheduler
object and a successfully binding `evaluate` call, every epoch of the loop
completes without error. -/
lemma fit_complete (C : Collab P ι γ L M) (s : S)
    (T V : List (BatchData ι γ)) (m0 : Model P)
    (hT : T ≠ []) (hTs : ∀ b ∈ T, 0 < C.size0 b.X)
    (hV : V ≠ []) (hVs : ∀ b ∈ V, 0 < C.size0 b.X) (n : ℕ) :
    (fitGen C true (some s) T V m0 n).err = none := by
  induction n with
  | zero => rfl
  | succ k ih =>
    rw [fitGen_succ]
    exact epochStep_completes C s T V _ hT hTs hV hVs ih

/-- Line 62-63 of solver.py computes the maximum of the old best score and
the epoch's score. -/
lemma if_lt_eq_max (a d : ℚ) : (if a < d then d else a) = max a d := by
  rcases le_or_lt d a with h | h
  · rw [if_neg (not_lt.mpr h), max_eq_left h]
  · rw [if_pos h, max_eq_right (le_of_lt h)]

/-- The initial value is below a `max`-fold. -/
lemma init_le_foldl_max (ds : List ℚ) : ∀ a : ℚ, a ≤ ds.foldl max a := by
  induction ds with
  | nil => intro a; exact le_rfl
  | cons d ds ih =>
    intro a
    exact le_trans (le_max_left a d) (ih (max a d))

/-- Every element is below a `max`-fold. -/
lemma mem_le_foldl_max (ds : List ℚ) : ∀ (a x : ℚ), x ∈ ds → x ≤ ds.foldl max a := by
  induction ds with
  | nil => intro a x hx; simp at hx
  | cons d ds ih =>
    intro a x hx
    rw [List.foldl_cons]
    rcases List.mem_cons.mp hx with h | h
    · rw [h]
      exact le_trans (le_max_right a d) (init_le_foldl_max ds (max a d))
    · exact ih (max a d) x h

/-- A `max`-fold is an element of the list or the initial value. -/
lemma foldl_max_mem_or (ds : List ℚ) : ∀ a : ℚ, ds.foldl max a ∈ ds ∨ ds.foldl max a = a := by
  induction ds with
  | nil => intro a; exact Or.inr rfl
  | cons d ds ih =>
    intro a
    rw [List.foldl_cons]
    rcases ih (max a d) with h | h
    · exact Or.inl (List.mem_cons_of_mem d h)
    · rcases le_total a d with had | had
      · exact Or.inl (by rw [h, max_eq_right had]; exact List.mem_cons_self d ds)
      · exact Or.inr (by rw [h, max_eq_left had])

/-- Running invariant of the epoch loop: as long as no exception has been
raised, each completed epoch has appended exactly one entry to each
loss-history list, `T.length` entries to `train_loss_batch`, one Dice
observation to the ghost history, and `best_dice_score` is the `max`-fold
of the observed Dice scores over the initial `0`. -/
lemma fitGen_ok_inv (C : Collab P ι γ L M) (bind : Bool) (sch : Option S)
    (T V : List (BatchData ι γ)) (m0 : Model P) :
    ∀ n : ℕ, (fitGen C bind sch T V m0 n).err = none →
      (fitGen C bind sch T V m0 n).train_loss_history.length = n ∧
      (fitGen C bind sch T V m0 n).val_loss_history.length = n ∧
      (fitGen C bind sch T V m0 n).train_loss_batch.length = n * T.length ∧
      (fitGen C bind sch T V m0 n).dice_history.length = n ∧
      (fitGen C bind sch T V m0 n).best_dice_score
        = (fitGen C bind sch T V m0 n).dice_history.foldl max 0 := by
  intro n
  induction n with
  | zero => intro _; simp [fitGen, initState]
  | succ k ih =>
    intro h1
    rw [fitGen_succ] at h1 ⊢
    have h0 := err_none_of_epochStep C bind sch T V _ h1
    obtain ⟨l1, l2, l3, l4, l5⟩ := ih h0
    obtain ⟨t1, t2, v, htr, hev, hlen, heq⟩ := epochStep_ok_spec C bind sch T V _ h0 h1
    rw [heq]
    refine ⟨?_, ?_, ?_, ?_, ?_⟩
    · simp [l1]
    · simp [l2]
    · simp [l3, hlen]
      ring
    · simp [l4]
    · simp only [List.foldl_append, List.foldl_cons, List.foldl_nil, ← l5, if_lt_eq_max]

/-- Concrete instantiation of the collaborators used to exhibit the
theorems at explicit inputs: a batch input carries its loss value and its
batch size, the criterion returns that loss, the optimizer step increments
the parameter, and the metric aggregator counts its update calls and
reports that count as the Dice score. -/
def exCollab : Collab ℚ (ℚ × ℕ) Unit ℚ ℕ :=
  { forward := fun _ _ x => x.1
    criterion := fun l _ => l
    gradUpdate := fun p _ _ => p + 1
    size0 := fun x => x.2
    mInit := 0
    mUpdate := fun m _ _ => m + 1
    mDice := fun m => (m : ℚ) }

/-- A batch of given loss value and batch size for `exCollab`. -/
def exBatch (l : ℚ) (s : ℕ) : BatchData (ℚ × ℕ) Unit := ⟨(l, s), ()⟩

/-- A training loader with two batches of sizes 2 and 3 and losses 1.0 and
2.0. -/
def exT : List (BatchData (ℚ × ℕ) Unit) := [exBatch 1 2, exBatch 2 3]

/-- A validation loader with one batch of size 1 and loss 1.0. -/
def exV : List (BatchData (ℚ × ℕ) Unit) := [exBatch 1 1]

/-- An initial model for `exCollab`. -/
def exModel : Model ℚ := ⟨0, false⟩

/-- Claim C2: after the epoch loop of `fit` completes `N` epochs without
error — stated for every outcome of the `evaluate`-call argument binding,
hence in particular for the actual `Solver.fit` — the training loss
history and the validation loss history each have length exactly `N`: one
epoch-average value is appended per epoch to each. -/
theorem loss_history_lengths_eq_epochs (C : Collab P ι γ L M) (bind : Bool)
    (sch : Option S) (T V : List (BatchData ι γ)) (m0 : Model P) (n : ℕ)
    (h : (fitGen C bind sch T V m0 n).err = none) :
    (fitGen C bind sch T V m0 n).train_loss_history.length = n ∧
    (fitGen C bind sch T V m0 n).val_loss_history.length = n := by
  obtain ⟨l1, l2, _, _, _⟩ := fitGen_ok_inv C bind sch T V m0 n h
  exact ⟨l1, l2⟩

/-- Witness for C2 at a concrete run of two epochs. -/
theorem loss_history_lengths_eq_epochs_witness :
    (fitGen exCollab true (some ()) exT exV exModel 2).err = none ∧
    (fitGen exCollab true (some ()) exT exV exModel 2).train_loss_history.length = 2 ∧
    (fitGen exCollab true (some ()) exT exV exModel 2).val_loss_history.length = 2 := by
  have hc : (fitGen exCollab true (some ()) exT exV exModel 2).err = none :=
    fit_complete exCollab () exT exV exModel (by simp [exT]) (by decide)
      (by simp [exV]) (by decide) 2
  exact ⟨hc, loss_history_lengths_eq_epochs exCollab true (some ()) exT exV exModel 2 hc⟩

/-- Claim C10: `train_loss_batch` is never cleared between epochs — each
error-free epoch extends it by that epoch's per-batch sequence (of length
equal to the training loader's batch count), so after `N` error-free
epochs its length is `N` times the training loader's batch count, the
total over all epochs rather than a single epoch's count. -/
theorem train_loss_batch_accumulates (C : Collab P ι γ L M) (bind : Bool)
    (sch : Option S) (T V : List (BatchData ι γ)) (m0 : Model P) (n : ℕ)
    (h : (fitGen C bind sch T V m0 n).err = none) :
    (fitGen C bind sch T V m0 n).train_loss_batch.length = n * T.length ∧
    (∀ st : FitState P M, st.err = none → (epochStep C bind sch T V st).err = none →
      ∃ t1 : List ℚ,
        (epochStep C bind sch T V st).train_loss_batch = st.train_loss_batch ++ t1 ∧
        t1.length = T.length) := by
  refine ⟨(fitGen_ok_inv C bind sch T V m0 n h).2.2.1, ?_⟩
  intro st h0 h1
  obtain ⟨t1, t2, v, htr, hev, hlen, heq⟩ := epochStep_ok_spec C bind sch T V st h0 h1
  exact ⟨t1, by rw [heq], hlen⟩

/-- Witness for C10 at a concrete run of two epochs over a two-batch
training loader. -/
theorem train_loss_batch_accumulates_witness :
    (fitGen exCollab true (some ()) exT exV exModel 2).err = none ∧
    (fitGen exCollab true (some ()) exT exV exModel 2).train_loss_batch.length = 2 * 2 := by
  have hc : (fitGen exCollab true (some ()) exT exV exModel 2).err = none :=
    fit_complete exCollab () exT exV exModel (by simp [exT]) (by decide)
      (by simp [exV]) (by decide) 2
  have h := train_loss_batch_accumulates exCollab true (some ()) exT exV exModel 2 hc
  exact ⟨hc, by rw [h.1]; rfl⟩

/-- Claim C8: a pass over an empty loader fails with `ZeroDivisionError`
(the weighted-mean denominator is the integer `0`), for the training pass
and the evaluation pass alike; the exception propagates uncaught to `fit`,
which ends in that error state with no recovery or default value. -/
theorem empty_loader_zero_division (C : Collab P ι γ L M) (m m0 : Model P) (met : M)
    (bind : Bool) (sch : Option S) (V : List (BatchData ι γ)) :
    (Solver.train C m met ([] : List (BatchData ι γ))).2.2
      = Except.error PyError.zeroDivisionError ∧
    (Solver.evaluate C m met ([] : List (BatchData ι γ))).2.2
      = Except.error PyError.zeroDivisionError ∧
    (∀ n : ℕ, 1 ≤ n →
      (fitGen C bind sch ([] : List (BatchData ι γ)) V m0 n).err
        = some PyError.zeroDivisionError) := by
  have h1 : (fitGen C bind sch ([] : List (BatchData ι γ)) V m0 1).err
      = some PyError.zeroDivisionError := by
    show (epochStep C bind sch [] V ((epochStep C bind sch [] V)^[0] (initState C m0))).err
      = some PyError.zeroDivisionError
    unfold epochStep
    rw [if_neg (by simp [initState])]
    simp only []
    rw [train_result]
    simp [sizes]
  refine ⟨by simp [train_result, sizes], by simp [evaluate_result, sizes], ?_⟩
  intro n hn
  obtain ⟨k, rfl⟩ : ∃ k, n = k + 1 := ⟨n - 1, (Nat.succ_pred_eq_of_pos hn).symm⟩
  have hsplit : fitGen C bind sch ([] : List (BatchData ι γ)) V m0 (k + 1)
      = (epochStep C bind sch [] V)^[k] (fitGen C bind sch [] V m0 1) :=
    Function.iterate_add_apply _ k 1 _
  rw [hsplit, iterate_epochStep_of_isSome C bind sch [] V _ (by rw [h1]; rfl) k, h1]

/-- Witness for C8's fit-propagation conjunct at one epoch. -/
theorem empty_loader_zero_division_witness :
    (1 : ℕ) ≤ 1 ∧
    (fitGen exCollab true (some ()) ([] : List (BatchData (ℚ × ℕ) Unit)) exV exModel 1).err
      = some PyError.zeroDivisionError := by
  refine ⟨le_refl 1, ?_⟩
  exact (empty_loader_zero_division exCollab exModel exModel 0 true (some ()) exV).2.2 1 (le_refl 1)

/-- Claim C7: the evaluation pass never mutates the model parameters (its
body clears no gradients, runs no backward pass and takes no optimizer
step), so running it twice in a row on the same model and inputs returns
the identical loss both times. -/
theorem evaluate_pure (C : Collab P ι γ L M) (m : Model P) (met met2 : M)
    (V : List (BatchData ι γ)) :
    (Solver.evaluate C m met V).1.params = m.params ∧
    (Solver.evaluate C (Solver.evaluate C m met V).1 met2 V).2.2
      = (Solver.evaluate C m met V).2.2 := by
  constructor
  · rw [evaluate_model]
  · rw [evaluate_model]
    rw [evaluate_result, evaluate_result]

/-- Claim C1: `evaluate` is a static method whose first parameter is named
`self`, so the call in `fit` supplies five positional arguments for six
required parameters and never binds `metrics`; for every epoch count of at
least one (over a training loader that itself raises nothing), `fit`
raises `TypeError` during the first epoch, before the validation loss is
recorded, and therefore never completes a single epoch. -/
theorem fit_first_epoch_typeError (C : Collab P ι γ L M) (sch : Option S)
    (T V : List (BatchData ι γ)) (m0 : Model P) (n : ℕ)
    (hn : 1 ≤ n) (hT : T ≠ []) (hTs : ∀ b ∈ T, 0 < C.size0 b.X) :
    evaluateCallBinds = false ∧
    (Solver.fit C sch T V m0 n).err = some PyError.typeError ∧
    (Solver.fit C sch T V m0 n).val_loss_history = [] := by
  have hTz : (sizes C T).sum ≠ 0 := sizes_sum_ne_zero C T hT hTs
  have hbind : evaluateCallBinds = false := by decide
  have h1err : (fitGen C false sch T V m0 1).err = some PyError.typeError := by
    show (epochStep C false sch T V (initState C m0)).err = some PyError.typeError
    unfold epochStep
    rw [if_neg (by simp [initState])]
    simp only []
    rw [train_result, if_neg hTz]
    simp
  have h1val : (fitGen C false sch T V m0 1).val_loss_history = [] := by
    show (epochStep C false sch T V (initState C m0)).val_loss_history = []
    unfold epochStep
    rw [if_neg (by simp [initState])]
    simp only []
    rw [train_result, if_neg hTz]
    simp [initState]
  obtain ⟨k, rfl⟩ : ∃ k, n = k + 1 := ⟨n - 1, (Nat.succ_pred_eq_of_pos hn).symm⟩
  have hsplit : fitGen C false sch T V m0 (k + 1)
      = (epochStep C false sch T V)^[k] (fitGen C false sch T V m0 1) :=
    Function.iterate_add_apply _ k 1 _
  have hfix : (epochStep C false sch T V)^[k] (fitGen C false sch T V m0 1)
      = fitGen C false sch T V m0 1 :=
    iterate_epochStep_of_isSome C false sch T V _ (by rw [h1err]; rfl) k
  refine ⟨hbind, ?_, ?_⟩
  · show (fitGen C evaluateCallBinds sch T V m0 (k + 1)).err = some PyError.typeError
    rw [hbind, hsplit, hfix, h1err]
  · show (fitGen C evaluateCallBinds sch T V m0 (k + 1)).val_loss_history = []
    rw [hbind, hsplit, hfix, h1val]

/-- Witness for C1 at a concrete one-epoch run. -/
theorem fit_first_epoch_typeError_witness :
    (1 : ℕ) ≤ 1 ∧ exT ≠ [] ∧
    (Solver.fit exCollab (some ()) exT exV exModel 1).err = some PyError.typeError ∧
    (Solver.fit exCollab (some ()) exT exV exModel 1).val_loss_history = [] := by
  have h := fit_first_epoch_typeError exCollab (some ()) exT exV exModel 1
    (le_refl 1) (by simp [exT]) (by decide)
  exact ⟨le_refl 1, by simp [exT], h.2.1, h.2.2⟩

/-- Claim C9: when no scheduler is configured the branch of lines 59-60 is
taken and evaluates `None.step`, raising `AttributeError` — so the
scheduler-step line completes without error exactly when a truthy
scheduler object is configured, and an epoch of the loop (with the
`evaluate` call binding and healthy loaders) ends in `AttributeError` when
the scheduler is `None`. -/
theorem scheduler_none_attributeError (C : Collab P ι γ L M)
    (T V : List (BatchData ι γ)) (m0 : Model P)
    (hT : T ≠ []) (hTs : ∀ b ∈ T, 0 < C.size0 b.X)
    (hV : V ≠ []) (hVs : ∀ b ∈ V, 0 < C.size0 b.X) :
    schedulerStepLine (none : Option S) = Except.error PyError.attributeError ∧
    (∀ sch : Option S, schedulerStepLine sch = Except.ok () ↔ sch.isSome = true) ∧
    (fitGen C true (none : Option S) T V m0 1).err = some PyError.attributeError := by
  have hTz : (sizes C T).sum ≠ 0 := sizes_sum_ne_zero C T hT hTs
  have hVz : (sizes C V).sum ≠ 0 := sizes_sum_ne_zero C V hV hVs
  refine ⟨schedulerStepLine_none, ?_, ?_⟩
  · intro sch
    cases sch with
    | none => simp [schedulerStepLine_none]
    | some s => simp [schedulerStepLine_some]
  · show (epochStep C true (none : Option S) T V (initState C m0)).err
      = some PyError.attributeError
    unfold epochStep
    rw [if_neg (by simp [initState])]
    simp only []
    rw [train_result, if_neg hTz]
    simp only []
    rw [evaluate_result, if_neg hVz]
    simp only []
    rw [schedulerStepLine_none]
    simp

/-- Witness for C9 at concrete loaders. -/
theorem scheduler_none_attributeError_witness :
    exT ≠ [] ∧ exV ≠ [] ∧
    (fitGen exCollab true (none : Option Unit) exT exV exModel 1).err
      = some PyError.attributeError := by
  have h := scheduler_none_attributeError (S := Unit) exCollab exT exV exModel
    (by simp [exT]) (by decide) (by simp [exV]) (by decide)
  exact ⟨by simp [exT], by simp [exV], h.2.2⟩

/-- Claim C6: the guard of the scheduler step (line 59) is true exactly
when no scheduler is configured, so a scheduler-step call is attempted
only in that case; when a scheduler object is configured the branch is
skipped, no step occurs, and no run of the epoch loop can end in the
`AttributeError` of that line. -/
theorem scheduler_step_only_when_none :
    (∀ sch : Option S, schedulerGuard sch = true ↔ sch = none) ∧
    (∀ s : S, schedulerGuard (some s) = false ∧
      schedulerStepLine (some s) = Except.ok ()) ∧
    (∀ (C : Collab P ι γ L M) (bind : Bool) (s : S) (T V : List (BatchData ι γ))
        (m0 : Model P) (n : ℕ),
      (fitGen C bind (some s) T V m0 n).err ≠ some PyError.attributeError) := by
  refine ⟨?_, ?_, ?_⟩
  · intro sch
    cases sch with
    | none => simp [schedulerGuard, optTruthy]
    | some s => simp [schedulerGuard, optTruthy]
  · intro s
    exact ⟨by simp [schedulerGuard, optTruthy], schedulerStepLine_some s⟩
  · intro C bind s T V m0 n
    induction n with
    | zero => simp [fitGen, initState]
    | succ k ih =>
      rw [fitGen_succ]
      exact epochStep_err_ne_attr C bind s T V _ ih

/-- Claim C5: for a training pass over a loader with `B` batches, the
returned per-batch loss sequence has length exactly `B` and its element at
index `i` is the unweighted running mean of the first `i + 1` batch losses
(their sum divided by `i + 1`). -/
theorem train_loss_running_mean (C : Collab P ι γ L M) (m : Model P) (met : M)
    (T : List (BatchData ι γ)) (hT : T ≠ []) (hTs : ∀ b ∈ T, 0 < C.size0 b.X) :
    (Solver.train C m met T).2.2
      = Except.ok (tlAux 0 0 (trainLosses C m.params T),
          dot (trainLosses C m.params T) (sizes C T) / (((sizes C T).sum : ℚ))) ∧
    (tlAux 0 0 (trainLosses C m.params T)).length = T.length ∧
    (∀ (i : ℕ) (hi : i < (tlAux 0 0 (trainLosses C m.params T)).length),
      (tlAux 0 0 (trainLosses C m.params T)).get ⟨i, hi⟩
        = ((trainLosses C m.params T).take (i + 1)).sum / ((i : ℚ) + 1)) := by
  have hTz : (sizes C T).sum ≠ 0 := sizes_sum_ne_zero C T hT hTs
  refine ⟨by rw [train_result, if_neg hTz],
    by rw [tlAux_length, trainLosses_length], ?_⟩
  intro i hi
  rw [tlAux_get]
  norm_num

/-- Witness for C5 at the concrete two-batch loader. -/
theorem train_loss_running_mean_witness :
    exT ≠ [] ∧
    (tlAux 0 0 (trainLosses exCollab exModel.params exT)).length = exT.length := by
  have h := train_loss_running_mean exCollab exModel 0 exT (by simp [exT]) (by decide)
  exact ⟨by simp [exT], h.2.1⟩

/-- Claim C4: for every nonempty loader (of nonempty batches) the
epoch-average loss returned by a pass — training or evaluation — is the
batch-size-weighted mean of the per-batch losses, the sum of each loss
times its batch size divided by the summed batch sizes; for a single-batch
loader it is exactly that batch's loss, and on two batches of sizes 2 and
3 with losses 1.0 and 2.0 it is 8/5 = 1.6. -/
theorem epoch_average_is_weighted_mean :
    (∀ (C : Collab P ι γ L M) (m : Model P) (met : M) (T : List (BatchData ι γ)),
      T ≠ [] → (∀ b ∈ T, 0 < C.size0 b.X) →
      (Solver.train C m met T).2.2
        = Except.ok (tlAux 0 0 (trainLosses C m.params T),
            dot (trainLosses C m.params T) (sizes C T) / (((sizes C T).sum : ℚ))) ∧
      (Solver.evaluate C m met T).2.2
        = Except.ok (dot (evalLosses C m.params T) (sizes C T)
            / (((sizes C T).sum : ℚ)))) ∧
    (∀ (C : Collab P ι γ L M) (m : Model P) (met : M) (b : BatchData ι γ),
      0 < C.size0 b.X →
      (Solver.train C m met [b]).2.2
        = Except.ok ([C.criterion (C.forward m.params true b.X) b.Y],
            C.criterion (C.forward m.params true b.X) b.Y) ∧
      (Solver.evaluate C m met [b]).2.2
        = Except.ok (C.criterion (C.forward m.params false b.X) b.Y)) ∧
    ((Solver.train exCollab exModel 0 exT).2.2
        = Except.ok ([1, 3/2], 8/5) ∧
     (Solver.evaluate exCollab exModel 0 exT).2.2 = Except.ok (8/5)) := by
  refine ⟨?_, ?_, ?_, ?_⟩
  · intro C m met T hT hTs
    have hTz : (sizes C T).sum ≠ 0 := sizes_sum_ne_zero C T hT hTs
    exact ⟨by rw [train_result, if_neg hTz], by rw [evaluate_result, if_neg hTz]⟩
  · intro C m met b hb
    have hsz : (sizes C [b]).sum ≠ 0 := by
      simp only [sizes, List.map_cons, List.map_nil, List.sum_cons, List.sum_nil]
      omega
    have hq : ((C.size0 b.X : ℚ)) ≠ 0 := by
      exact_mod_cast (by omega : C.size0 b.X ≠ 0)
    constructor
    · rw [train_result, if_neg hsz]
      simp [trainLosses, tlAux, dot, sizes]
      exact mul_div_cancel_right₀ _ hq
    · rw [evaluate_result, if_neg hsz]
      simp [evalLosses, dot, sizes]
      exact mul_div_cancel_right₀ _ hq
  · rw [train_result, if_neg (by decide)]
    norm_num [trainLosses, tlAux, dot, sizes, exT, exBatch, exCollab, exModel]
  · rw [evaluate_result, if_neg (by decide)]
    norm_num [evalLosses, dot, sizes, exT, exBatch, exCollab, exModel]

/-- Witness for C4's universally quantified conjunct at the concrete
two-batch loader. -/
theorem epoch_average_is_weighted_mean_witness :
    exT ≠ [] ∧
    (Solver.evaluate exCollab exModel 0 exT).2.2
      = Except.ok (dot (evalLosses exCollab exModel.params exT) (sizes exCollab exT)
          / (((sizes exCollab exT).sum : ℚ))) := by
  have h := epoch_average_is_weighted_mean (P := ℚ) (ι := ℚ × ℕ) (γ := Unit)
    (L := ℚ) (M := ℕ)
  exact ⟨by simp [exT], (h.1 exCollab exModel 0 exT (by simp [exT]) (by decide)).2⟩

/-- Claim C3: the best Dice score starts at `0.0`, never decreases across
epochs, and after `N` error-free epochs (with, as for any Dice overlap
score, only non-negative observations) it equals the maximum validation
Dice score observed over those epochs; the best-model snapshot is replaced
— by a copy of the current model parameters — exactly in the epochs whose
validation Dice score strictly exceeds the previous best. -/
theorem best_dice_tracking (C : Collab P ι γ L M) (bind : Bool) (sch : Option S)
    (T V : List (BatchData ι γ)) (m0 : Model P) :
    (initState C m0 : FitState P M).best_dice_score = 0 ∧
    (∀ n : ℕ, (fitGen C bind sch T V m0 n).best_dice_score
        ≤ (fitGen C bind sch T V m0 (n + 1)).best_dice_score) ∧
    (∀ n : ℕ, (fitGen C bind sch T V m0 n).err = none → 1 ≤ n →
      (∀ x ∈ (fitGen C bind sch T V m0 n).dice_history, 0 ≤ x) →
      (fitGen C bind sch T V m0 n).dice_history.length = n ∧
      (fitGen C bind sch T V m0 n).best_dice_score
          ∈ (fitGen C bind sch T V m0 n).dice_history ∧
      (∀ x ∈ (fitGen C bind sch T V m0 n).dice_history,
        x ≤ (fitGen C bind sch T V m0 n).best_dice_score)) ∧
    (∀ n : ℕ, (fitGen C bind sch T V m0 n).err = none →
      (fitGen C bind sch T V m0 (n + 1)).err = none →
      ∃ d : ℚ,
        (fitGen C bind sch T V m0 (n + 1)).dice_history
          = (fitGen C bind sch T V m0 n).dice_history ++ [d] ∧
        (d > (fitGen C bind sch T V m0 n).best_dice_score →
          (fitGen C bind sch T V m0 (n + 1)).best_dice_score = d ∧
          (fitGen C bind sch T V m0 (n + 1)).best_model
            = (fitGen C bind sch T V m0 (n + 1)).model.params) ∧
        (¬ d > (fitGen C bind sch T V m0 n).best_dice_score →
          (fitGen C bind sch T V m0 (n + 1)).best_dice_score
            = (fitGen C bind sch T V m0 n).best_dice_score ∧
          (fitGen C bind sch T V m0 (n + 1)).best_model
            = (fitGen C bind sch T V m0 n).best_model)) := by
  refine ⟨rfl, ?_, ?_, ?_⟩
  · intro n
    rw [fitGen_succ]
    exact epochStep_best_mono C bind sch T V _
  · intro n h hn hx
    obtain ⟨_, _, _, l4, l5⟩ := fitGen_ok_inv C bind sch T V m0 n h
    have hne : (fitGen C bind sch T V m0 n).dice_history ≠ [] := by
      intro hnil
      rw [hnil] at l4
      simp at l4
      omega
    refine ⟨l4, ?_, ?_⟩
    · rcases foldl_max_mem_or (fitGen C bind sch T V m0 n).dice_history 0 with hm | hz
      · rw [l5]
        exact hm
      · obtain ⟨x, hxm⟩ := List.exists_mem_of_ne_nil _ hne
        have hx0 : 0 ≤ x := hx x hxm
        have hxle : x ≤ 0 := by
          have := mem_le_foldl_max (fitGen C bind sch T V m0 n).dice_history 0 x hxm
          rwa [hz] at this
        have : x = 0 := le_antisymm hxle hx0
        rw [l5, hz, ← this]
        exact hxm
    · intro x hxm
      rw [l5]
      exact mem_le_foldl_max _ 0 x hxm
  · intro n h0 h1
    rw [fitGen_succ] at h1 ⊢
    obtain ⟨t1, t2, v, htr, hev, hlen, heq⟩ :=
      epochStep_ok_spec C bind sch T V _ h0 h1
    rw [heq]
    refine ⟨C.mDice (Solver.evaluate C
        (Solver.train C (fitGen C bind sch T V m0 n).model C.mInit T).1 C.mInit V).2.1,
      rfl, ?_, ?_⟩
    · intro hd
      exact ⟨by simp [hd], by simp [hd]⟩
    · intro hd
      exact ⟨by simp [hd], by simp [hd]⟩

/-- Witness for C3 at a concrete one-epoch run whose single Dice
observation is `1`. -/
theorem best_dice_tracking_witness :
    (fitGen exCollab true (some ()) exT exV exModel 1).err = none ∧
    (fitGen exCollab true (some ()) exT exV exModel 1).best_dice_score
      ∈ (fitGen exCollab true (some ()) exT exV exModel 1).dice_history := by
  have hc : (fitGen exCollab true (some ()) exT exV exModel 1).err = none :=
    fit_complete exCollab () exT exV exModel (by simp [exT]) (by decide)
      (by simp [exV]) (by decide) 1
  have h := best_dice_tracking exCollab true (some ()) exT exV exModel
  exact ⟨hc, (h.2.2.1 1 hc (le_refl 1) (by decide)).2.1⟩

end SolverPy
